import Mathlib

/-!
Verification of the Ledger-Stock Consistency Engine and Analytics Pipeline
of the `mon_business` bookkeeping application.

The development shallowly embeds the TypeScript core:
* `src/lib/entries.ts`  - entry CRUD with stock side-effects;
* `src/lib/profit.ts`   - pure analytics over the entry list;
* `src/lib/healthScore.ts` - the composite 0-10 health score;
* `src/lib/storage.ts`  - legacy-format migration;
* `src/lib/import_and_export.ts` - JSON import validation.

Modelling conventions: JavaScript numbers are embedded as `Rat`
(amounts, quantities, scores) or `Int` (timestamps); calendar dates
(`YYYY-MM-DD` strings in the source) are embedded as `Int` epoch-day
indices, so string equality of dates becomes integer equality,
`new Date(d1) <= new Date(d2)` becomes `d1 <= d2`, and subtracting
`n` days subtracts `n`.  The ambient "now" of the analytics functions
is passed explicitly as a `today : Int` parameter.
-/

namespace MonBusiness

/-- `type` field of a `DailyEntry` (src/types: `'SALE' | 'EXPENSE'`). -/
inductive EntryType where
  | SALE
  | EXPENSE
deriving DecidableEq, Repr

/-- Expense categories (src/types: fixed six-member union). -/
inductive ExpenseCategory where
  | Stock
  | Transport
  | Loyer
  | Salaire
  | Internet
  | Autre
deriving DecidableEq, Repr

/-- A financial entry as manipulated by `src/lib/entries.ts` and read by
`src/lib/profit.ts`.  `sales`/`expenses` are the per-entry totals that
`profit.ts` reads; `type`/`amount`/`productId`/`quantity`/`category` are
the fields `entries.ts` uses to compute stock side-effects. -/
structure DailyEntry where
  id : String
  date : Int
  timestamp : Int
  type : EntryType
  amount : Rat
  productId : Option String
  quantity : Option Rat
  category : Option ExpenseCategory
  sales : Rat
  expenses : Rat
deriving DecidableEq, Repr

/-- A stock item (src/types `StockItem`). -/
structure StockItem where
  id : String
  name : String
  quantity : Rat
  threshold : Rat
  totalSold : Rat
  unitPrice : Option Rat
deriving DecidableEq, Repr

/-- `BusinessSettings` (src/types). -/
structure BusinessSettings where
  name : String
  dailyTarget : Option Rat
deriving DecidableEq, Repr

/-- The aggregate persisted document (src/types `BusinessData`). -/
structure BusinessData where
  settings : BusinessSettings
  entries : List DailyEntry
  stock : List StockItem
deriving DecidableEq, Repr

/-! ## Stock side-effects (src/lib/entries.ts lines 74-127) -/

/-- Apply `f` to the first element of `l` satisfying `p`, leave the rest
unchanged; identity when no element matches.  This models the source's
`findIndex` followed by an in-place update of `stock[itemIndex]`. -/
def updateFirst {α : Type} (p : α → Bool) (f : α → α) : List α → List α
  | [] => []
  | a :: l => if p a then f a :: l else a :: updateFirst p f l

/-- The SALE branch of `applyStockChange`: decrease stock (floored at 0),
increase `totalSold`, recompute the weighted-average `unitPrice`. -/
def saleApply (amount q : Rat) (item : StockItem) : StockItem :=
  let currentRevenue := item.totalSold * (item.unitPrice.getD 0)
  let newRevenue := currentRevenue + amount
  let newTotalSold := item.totalSold + q
  let newAveragePrice := if 0 < newTotalSold then newRevenue / newTotalSold else 0
  { item with
      quantity := max 0 (item.quantity - q)
      totalSold := newTotalSold
      unitPrice := some ((round newAveragePrice : Int) : Rat) }

/-- `applyStockChange` (src/lib/entries.ts:74).  The outer truthiness
guard `entry.productId && entry.quantity` requires a present, non-empty
product id and a present, non-zero quantity. -/
def applyStockChange (stock : List StockItem) (entry : DailyEntry) : List StockItem :=
  match entry.productId, entry.quantity with
  | some pid, some q =>
      if pid ≠ "" ∧ q ≠ 0 then
        updateFirst (fun s => s.id == pid)
          (fun item =>
            if entry.type = EntryType.SALE then
              saleApply entry.amount q item
            else if entry.type = EntryType.EXPENSE ∧ entry.category = some ExpenseCategory.Stock then
              { item with quantity := item.quantity + q }
            else item) stock
      else stock
  | _, _ => stock

/-- `revertStockChange` (src/lib/entries.ts:105): undo a sale by adding
the quantity back and flooring `totalSold` at 0 (the unit price average
is intentionally not unwound); undo a Stock expense by subtracting,
floored at 0. -/
def revertStockChange (stock : List StockItem) (entry : DailyEntry) : List StockItem :=
  match entry.productId, entry.quantity with
  | some pid, some q =>
      if pid ≠ "" ∧ q ≠ 0 then
        updateFirst (fun s => s.id == pid)
          (fun item =>
            if entry.type = EntryType.SALE then
              { item with
                  quantity := item.quantity + q
                  totalSold := max 0 (item.totalSold - q) }
            else if entry.type = EntryType.EXPENSE ∧ entry.category = some ExpenseCategory.Stock then
              { item with quantity := max 0 (item.quantity - q) }
            else item) stock
      else stock
  | _, _ => stock

/-! ## Entry CRUD (src/lib/entries.ts lines 15-69) -/

/-- The comparator of `data.entries.sort` (src/lib/entries.ts:37): by
`date` first (string compare of `YYYY-MM-DD` = chronological order),
then by `timestamp`. -/
def entryLE (a b : DailyEntry) : Bool :=
  if a.date < b.date then true
  else if b.date < a.date then false
  else decide (a.timestamp ≤ b.timestamp)

/-- Insert into a sorted list, for `sortEntries`. -/
def insertEntry (e : DailyEntry) : List DailyEntry → List DailyEntry
  | [] => [e]
  | a :: l => if entryLE e a then e :: a :: l else a :: insertEntry e l

/-- Sort the entry list with the `(date, timestamp)` comparator. -/
def sortEntries : List DailyEntry → List DailyEntry
  | [] => []
  | a :: l => insertEntry a (sortEntries l)

/-- Replace the first entry whose `id` equals `entry.id` (models
`data.entries[existingIndex] = entry` after `findIndex`). -/
def replaceFirst (entry : DailyEntry) : List DailyEntry → List DailyEntry
  | [] => []
  | e :: rest => if e.id == entry.id then entry :: rest else e :: replaceFirst entry rest

/-- The in-memory state transition of `addOrUpdateEntry`
(src/lib/entries.ts:15): on an existing id, revert the old entry's stock
effect, replace it and apply the new one; otherwise append and apply.
The entry list is then re-sorted by `(date, timestamp)`.  Persistence
(`saveData`) is modelled separately. -/
def addOrUpdateEntryData (data : BusinessData) (entry : DailyEntry) : BusinessData :=
  match data.entries.find? (fun e => e.id == entry.id) with
  | some oldEntry =>
      let stock1 := revertStockChange data.stock oldEntry
      let entries1 := replaceFirst entry data.entries
      let stock2 := applyStockChange stock1 entry
      { data with entries := sortEntries entries1, stock := stock2 }
  | none =>
      let entries1 := data.entries ++ [entry]
      let stock2 := applyStockChange data.stock entry
      { data with entries := sortEntries entries1, stock := stock2 }

/-- The in-memory state transition of `deleteEntry`
(src/lib/entries.ts:54): revert the stock effect of the entry with the
given id when it exists, then remove every entry with that id. -/
def deleteEntryData (data : BusinessData) (entryId : String) : BusinessData :=
  let stock1 :=
    match data.entries.find? (fun e => e.id == entryId) with
    | some e => revertStockChange data.stock e
    | none => data.stock
  { data with
      stock := stock1
      entries := data.entries.filter (fun e => e.id != entryId) }

/-- `deleteEntry` including its persistence outcome: the mutated document
is handed to the store, whose success signal is returned. -/
def deleteEntryRun (data : BusinessData) (entryId : String)
    (persist : BusinessData → Bool) : BusinessData × Bool :=
  let data1 := deleteEntryData data entryId
  (data1, persist data1)

/-- A ledger operation submitted to the Entry Ledger Manager. -/
inductive LedgerOp where
  | upsert (entry : DailyEntry)
  | delete (entryId : String)

/-- Apply one ledger operation to the document. -/
def applyOp (data : BusinessData) : LedgerOp → BusinessData
  | .upsert entry => addOrUpdateEntryData data entry
  | .delete entryId => deleteEntryData data entryId

/-- Run a sequence of ledger operations from left to right. -/
def runOps (data : BusinessData) (ops : List LedgerOp) : BusinessData :=
  ops.foldl applyOp data

/-- Every stock quantity in the list is non-negative. -/
def StockNonneg (stock : List StockItem) : Prop :=
  ∀ s ∈ stock, 0 ≤ s.quantity

/-- The entry's `quantity` field, when present, is positive. -/
def EntryQtyPos (e : DailyEntry) : Prop :=
  ∀ q, e.quantity = some q → 0 < q

/-- The quantity carried by an operation, when present, is positive. -/
def OpQtyPos : LedgerOp → Prop
  | .upsert e => EntryQtyPos e
  | .delete _ => True

/-! ## Invariant lemmas -/

theorem updateFirst_forall {α : Type} {P : α → Prop} {p : α → Bool} {f : α → α}
    {l : List α} (hl : ∀ a ∈ l, P a) (hf : ∀ a, P a → P (f a)) :
    ∀ x ∈ updateFirst p f l, P x := by
  induction l with
  | nil => intro x hx; cases hx
  | cons a l ih =>
      intro x hx
      simp only [updateFirst] at hx
      by_cases hpa : p a
      · rw [if_pos hpa] at hx
        rcases List.mem_cons.mp hx with h | h
        · exact h ▸ hf a (hl a (List.mem_cons_self a l))
        · exact hl x (List.mem_cons_of_mem a h)
      · rw [if_neg hpa] at hx
        rcases List.mem_cons.mp hx with h | h
        · exact h ▸ hl a (List.mem_cons_self a l)
        · exact ih (fun y hy => hl y (List.mem_cons_of_mem a hy)) x h

theorem applyStockChange_nonneg {stock : List StockItem} {entry : DailyEntry}
    (hs : StockNonneg stock) (he : EntryQtyPos entry) :
    StockNonneg (applyStockChange stock entry) := by
  unfold applyStockChange
  split
  · rename_i pid q hpid hq
    split
    · have hqpos : 0 < q := he q hq
      refine updateFirst_forall hs ?_
      intro item hitem
      split
      · exact le_max_left 0 _
      · split
        · exact add_nonneg hitem hqpos.le
        · exact hitem
    · exact hs
  · exact hs

theorem revertStockChange_nonneg {stock : List StockItem} {entry : DailyEntry}
    (hs : StockNonneg stock) (he : EntryQtyPos entry) :
    StockNonneg (revertStockChange stock entry) := by
  unfold revertStockChange
  split
  · rename_i pid q hpid hq
    split
    · have hqpos : 0 < q := he q hq
      refine updateFirst_forall hs ?_
      intro item hitem
      split
      · exact add_nonneg hitem hqpos.le
      · split
        · exact le_max_left 0 _
        · exact hitem
    · exact hs
  · exact hs

theorem mem_insertEntry {e x : DailyEntry} {l : List DailyEntry}
    (hx : x ∈ insertEntry e l) : x = e ∨ x ∈ l := by
  induction l with
  | nil =>
      simp only [insertEntry, List.mem_singleton] at hx
      exact Or.inl hx
  | cons a l ih =>
      simp only [insertEntry] at hx
      by_cases h : entryLE e a
      · rw [if_pos h] at hx
        simpa using hx
      · rw [if_neg h] at hx
        rcases List.mem_cons.mp hx with h1 | h1
        · exact Or.inr (h1 ▸ List.mem_cons_self a l)
        · rcases ih h1 with h2 | h2
          · exact Or.inl h2
          · exact Or.inr (List.mem_cons_of_mem a h2)

theorem mem_sortEntries {x : DailyEntry} {l : List DailyEntry}
    (hx : x ∈ sortEntries l) : x ∈ l := by
  induction l with
  | nil =>
      simp only [sortEntries] at hx
      exact hx
  | cons a l ih =>
      simp only [sortEntries] at hx
      rcases mem_insertEntry hx with h | h
      · exact h ▸ List.mem_cons_self a l
      · exact List.mem_cons_of_mem a (ih h)

theorem mem_replaceFirst {entry x : DailyEntry} {l : List DailyEntry}
    (hx : x ∈ replaceFirst entry l) : x = entry ∨ x ∈ l := by
  induction l with
  | nil =>
      simp only [replaceFirst] at hx
      exact Or.inr hx
  | cons a l ih =>
      simp only [replaceFirst] at hx
      by_cases h : a.id == entry.id
      · rw [if_pos h] at hx
        rcases List.mem_cons.mp hx with h1 | h1
        · exact Or.inl h1
        · exact Or.inr (List.mem_cons_of_mem a h1)
      · rw [if_neg h] at hx
        rcases List.mem_cons.mp hx with h1 | h1
        · exact Or.inr (h1 ▸ List.mem_cons_self a l)
        · rcases ih h1 with h2 | h2
          · exact Or.inl h2
          · exact Or.inr (List.mem_cons_of_mem a h2)

/-- The whole-document invariant maintained by the Entry Ledger Manager:
non-negative stock quantities, and positive quantity fields on every
stored entry. -/
def DocInv (data : BusinessData) : Prop :=
  StockNonneg data.stock ∧ ∀ e ∈ data.entries, EntryQtyPos e

theorem applyOp_preserves_DocInv {data : BusinessData} {op : LedgerOp}
    (hinv : DocInv data) (hop : OpQtyPos op) : DocInv (applyOp data op) := by
  obtain ⟨hstock, hentries⟩ := hinv
  cases op with
  | upsert entry =>
      have hq : EntryQtyPos entry := hop
      simp only [applyOp, addOrUpdateEntryData]
      cases hfind : data.entries.find? (fun e => e.id == entry.id) with
      | some oldEntry =>
          have hold : oldEntry ∈ data.entries := List.mem_of_find?_eq_some hfind
          refine ⟨?_, ?_⟩
          · exact applyStockChange_nonneg
              (revertStockChange_nonneg hstock (hentries _ hold)) hq
          · intro e hee
            rcases mem_replaceFirst (mem_sortEntries hee) with h | h
            · exact h ▸ hq
            · exact hentries e h
      | none =>
          refine ⟨applyStockChange_nonneg hstock hq, ?_⟩
          intro e hee
          rcases List.mem_append.mp (mem_sortEntries hee) with h | h
          · exact hentries e h
          · rcases List.mem_singleton.mp h with h1
            exact h1 ▸ hq
  | delete entryId =>
      simp only [applyOp, deleteEntryData]
      refine ⟨?_, ?_⟩
      · cases hfind : data.entries.find? (fun e => e.id == entryId) with
        | some e =>
            exact revertStockChange_nonneg hstock
              (hentries e (List.mem_of_find?_eq_some hfind))
        | none => exact hstock
      · intro e hee
        exact hentries e (List.mem_of_mem_filter hee)

theorem runOps_preserves_DocInv {data : BusinessData} {ops : List LedgerOp}
    (hinv : DocInv data) (hops : ∀ op ∈ ops, OpQtyPos op) :
    DocInv (runOps data ops) := by
  induction ops generalizing data with
  | nil => exact hinv
  | cons op ops ih =>
      exact ih (applyOp_preserves_DocInv hinv (hops op (List.mem_cons_self op ops)))
        (fun o ho => hops o (List.mem_cons_of_mem op ho))

/-- C1.  Starting from a document whose stock quantities are all
non-negative and whose entries all carry positive `quantity` fields,
any sequence of add/update/delete operations (whose entries also carry
positive quantities) leaves every `StockItem.quantity` non-negative:
every stock mutation either adds a positive quantity or floors the
subtraction at zero. -/
theorem stock_never_negative (ops : List LedgerOp) (data : BusinessData)
    (hstock : StockNonneg data.stock)
    (hentries : ∀ e ∈ data.entries, EntryQtyPos e)
    (hops : ∀ op ∈ ops, OpQtyPos op) :
    StockNonneg (runOps data ops).stock :=
  (runOps_preserves_DocInv ⟨hstock, hentries⟩ hops).1

def c1ExampleStock : List StockItem :=
  [{ id := "p1", name := "Produit", quantity := 5, threshold := 1, totalSold := 0,
     unitPrice := none }]

def c1ExampleData : BusinessData :=
  { settings := { name := "", dailyTarget := none }, entries := [], stock := c1ExampleStock }

def c1ExampleSale : DailyEntry :=
  { id := "s1", date := 0, timestamp := 0, type := .SALE, amount := 100,
    productId := some "p1", quantity := some 2, category := none,
    sales := 100, expenses := 0 }

def c1ExampleRestock : DailyEntry :=
  { id := "x1", date := 0, timestamp := 1, type := .EXPENSE, amount := 40,
    productId := some "p1", quantity := some 3, category := some .Stock,
    sales := 0, expenses := 40 }

/-- Witness for C1 on a concrete document and operation sequence. -/
theorem stock_never_negative_witness :
    StockNonneg (runOps c1ExampleData
      [LedgerOp.upsert c1ExampleSale, LedgerOp.upsert c1ExampleRestock,
       LedgerOp.delete "s1"]).stock := by
  refine stock_never_negative _ _ (by unfold StockNonneg; decide) (by intro e he; cases he) ?_
  intro op hop
  fin_cases hop
  · intro q hq
    injection hq with h
    rw [← h]
    norm_num
  · intro q hq
    injection hq with h
    rw [← h]
    norm_num
  · trivial

/-! ## Add/delete round trip (C2) -/

theorem mem_insertEntry_iff {e x : DailyEntry} {l : List DailyEntry} :
    x ∈ insertEntry e l ↔ x = e ∨ x ∈ l := by
  constructor
  · exact mem_insertEntry
  · intro hx
    induction l with
    | nil =>
        rcases hx with h | h
        · simp [insertEntry, h]
        · cases h
    | cons a l ih =>
        simp only [insertEntry]
        by_cases h : entryLE e a
        · rw [if_pos h]
          rcases hx with h1 | h1
          · simp [h1]
          · exact List.mem_cons_of_mem e h1
        · rw [if_neg h]
          rcases hx with h1 | h1
          · exact List.mem_cons_of_mem a (ih (Or.inl h1))
          · rcases List.mem_cons.mp h1 with h2 | h2
            · exact h2 ▸ List.mem_cons_self a _
            · exact List.mem_cons_of_mem a (ih (Or.inr h2))

theorem mem_sortEntries_iff {x : DailyEntry} {l : List DailyEntry} :
    x ∈ sortEntries l ↔ x ∈ l := by
  constructor
  · exact mem_sortEntries
  · intro hx
    induction l with
    | nil => cases hx
    | cons a l ih =>
        simp only [sortEntries, mem_insertEntry_iff]
        rcases List.mem_cons.mp hx with h | h
        · exact Or.inl h
        · exact Or.inr (ih h)

/-- Finding the freshly inserted entry: if no entry of `l` carries
`e.id`, then after appending `e` and sorting, looking up `e.id` finds
exactly `e`. -/
theorem find?_sortEntries_fresh {l : List DailyEntry} {e : DailyEntry}
    (hfresh : ∀ x ∈ l, x.id ≠ e.id) :
    (sortEntries (l ++ [e])).find? (fun x => x.id == e.id) = some e := by
  cases hf : (sortEntries (l ++ [e])).find? (fun x => x.id == e.id) with
  | none =>
      exfalso
      have he : e ∈ sortEntries (l ++ [e]) :=
        mem_sortEntries_iff.mpr (List.mem_append.mpr (Or.inr (List.mem_singleton.mpr rfl)))
      have := List.find?_eq_none.mp hf e he
      simp at this
  | some y =>
      have hy : y ∈ sortEntries (l ++ [e]) := List.mem_of_find?_eq_some hf
      have hpy : y.id = e.id := by
        have := List.find?_some hf
        simpa using this
      rcases List.mem_append.mp (mem_sortEntries_iff.mp hy) with h | h
      · exact absurd hpy (hfresh y h)
      · rw [List.mem_singleton.mp h]

theorem updateFirst_updateFirst {α : Type} {p : α → Bool} {f g : α → α}
    {l : List α} (hg : ∀ a, p a = true → p (g a) = true) :
    updateFirst p f (updateFirst p g l) = updateFirst p (fun a => f (g a)) l := by
  induction l with
  | nil => rfl
  | cons a l ih =>
      by_cases hpa : p a
      · simp only [updateFirst, if_pos hpa, if_pos (hg a hpa)]
      · simp only [updateFirst, if_neg hpa, ih]

theorem find?_updateFirst {α : Type} {p : α → Bool} {f : α → α} {l : List α}
    (hf : ∀ a, p a = true → p (f a) = true) :
    (updateFirst p f l).find? p = (l.find? p).map f := by
  induction l with
  | nil => rfl
  | cons a l ih =>
      by_cases hpa : p a
      · simp only [updateFirst, if_pos hpa, List.find?_cons_of_pos _ (hf a hpa),
          List.find?_cons_of_pos _ hpa, Option.map_some']
      · simp only [updateFirst, if_neg hpa,
          List.find?_cons_of_neg _ (by simpa using hpa), ih,
          List.find?_cons_of_neg _ hpa]

def c2Data : BusinessData :=
  { settings := { name := "", dailyTarget := none }
    entries := []
    stock := [{ id := "p1", name := "Produit", quantity := 1, threshold := 0,
                totalSold := 0, unitPrice := none }] }

def c2Sale : DailyEntry :=
  { id := "s1", date := 0, timestamp := 0, type := .SALE, amount := 10,
    productId := some "p1", quantity := some 2, category := none,
    sales := 10, expenses := 0 }

/-- Counterexample to C2 as stated: product `p1` starts with quantity 1;
adding a SALE of 2 units clamps the deduction at 0, and deleting the
entry adds the 2 units back, leaving quantity 2 instead of the original
1.  The round trip does not restore `quantity` when the starting
quantity is smaller than the sold quantity. -/
theorem sale_add_delete_roundtrip_counterexample :
    ((deleteEntryData (addOrUpdateEntryData c2Data c2Sale) "s1").stock.find?
        (fun s => s.id == "p1")).map (fun s => s.quantity) = some 2
    ∧ (c2Data.stock.find? (fun s => s.id == "p1")).map (fun s => s.quantity) = some 1
    ∧ (2 : Rat) ≠ 1 := by
  refine ⟨?_, ?_, by norm_num⟩
  · norm_num [c2Data, c2Sale, addOrUpdateEntryData, deleteEntryData, applyStockChange,
      revertStockChange, updateFirst, saleApply, sortEntries, insertEntry, entryLE,
      replaceFirst, List.find?, List.filter]
  · norm_num [c2Data, List.find?]

/-- C2 (amended).  Adding a fresh SALE entry of `q > 0` units of product
`P` and then deleting that same entry restores `P.quantity` and
`P.totalSold` to exactly their pre-add values, provided the starting
quantity is at least `q` (so the apply step does not clamp at zero) and
the starting `totalSold` is non-negative.  When the starting quantity is
below `q` the quantity is not restored (see the counterexample). -/
theorem sale_add_delete_roundtrip (data : BusinessData) (e : DailyEntry)
    (P : String) (q : Rat) (item : StockItem)
    (htype : e.type = EntryType.SALE)
    (hpid : e.productId = some P)
    (hq : e.quantity = some q)
    (hqpos : 0 < q)
    (hfresh : ∀ x ∈ data.entries, x.id ≠ e.id)
    (hfind : data.stock.find? (fun s => s.id == P) = some item)
    (hq0 : q ≤ item.quantity)
    (ht0 : 0 ≤ item.totalSold) :
    ((deleteEntryData (addOrUpdateEntryData data e) e.id).stock.find?
        (fun s => s.id == P)).map (fun s => (s.quantity, s.totalSold))
      = some (item.quantity, item.totalSold) := by
  have hnone : data.entries.find? (fun x => x.id == e.id) = none := by
    refine List.find?_eq_none.mpr ?_
    intro x hx
    simpa using hfresh x hx
  have hdata1 : addOrUpdateEntryData data e =
      { data with entries := sortEntries (data.entries ++ [e])
                  stock := applyStockChange data.stock e } := by
    simp only [addOrUpdateEntryData, hnone]
  rw [hdata1]
  have hfinde : (sortEntries (data.entries ++ [e])).find? (fun x => x.id == e.id)
      = some e := find?_sortEntries_fresh hfresh
  simp only [deleteEntryData, hfinde]
  by_cases hP : P = ""
  · have hguard : ¬(P ≠ "" ∧ q ≠ 0) := by simp [hP]
    have happ : applyStockChange data.stock e = data.stock := by
      simp only [applyStockChange, hpid, hq, if_neg hguard]
    have hrev : revertStockChange data.stock e = data.stock := by
      simp only [revertStockChange, hpid, hq, if_neg hguard]
    rw [happ, hrev, hfind]
    rfl
  · have hguard : P ≠ "" ∧ q ≠ 0 := ⟨hP, (ne_of_gt hqpos)⟩
    have happ : applyStockChange data.stock e =
        updateFirst (fun s => s.id == P) (fun item => saleApply e.amount q item)
          data.stock := by
      simp only [applyStockChange, hpid, hq, if_pos hguard, htype, if_true]
    have hrev : ∀ l, revertStockChange l e =
        updateFirst (fun s => s.id == P)
          (fun item =>
            { item with
                quantity := item.quantity + q
                totalSold := max 0 (item.totalSold - q) }) l := by
      intro l
      simp only [revertStockChange, hpid, hq, if_pos hguard, htype, if_true]
    rw [happ, hrev,
      updateFirst_updateFirst (g := fun item => saleApply e.amount q item)
        (fun a ha => by simpa [saleApply] using ha),
      find?_updateFirst (fun a ha => by simpa [saleApply] using ha), hfind]
    simp only [Option.map_some', Option.some.injEq, saleApply]
    rw [max_eq_right (sub_nonneg.mpr hq0)]
    refine Prod.ext ?_ ?_
    · exact sub_add_cancel item.quantity q
    · rw [add_sub_cancel_right]
      exact max_eq_right ht0

def c2wData : BusinessData :=
  { settings := { name := "", dailyTarget := none }
    entries := []
    stock := [{ id := "p1", name := "Produit", quantity := 5, threshold := 0,
                totalSold := 1, unitPrice := none }] }

def c2wSale : DailyEntry :=
  { id := "s2", date := 0, timestamp := 0, type := .SALE, amount := 10,
    productId := some "p1", quantity := some 2, category := none,
    sales := 10, expenses := 0 }

/-- Witness for C2 (amended) on a concrete document: starting quantity 5,
selling and un-selling 2 units restores quantity 5 and totalSold 1. -/
theorem sale_add_delete_roundtrip_witness :
    ((deleteEntryData (addOrUpdateEntryData c2wData c2wSale) "s2").stock.find?
        (fun s => s.id == "p1")).map (fun s => (s.quantity, s.totalSold))
      = some (5, 1) := by
  have h := sale_add_delete_roundtrip c2wData c2wSale "p1" 2
    { id := "p1", name := "Produit", quantity := 5, threshold := 0,
      totalSold := 1, unitPrice := none }
    rfl rfl rfl (by norm_num) (by intro x hx; cases hx)
    (by norm_num [c2wData, List.find?]) (by norm_num) (by norm_num)
  simpa using h

/-! ## Deleting a non-existent entry (C9) -/

/-- C9.  When no stored entry carries the requested id, `deleteEntry`
applies no revert, removes nothing, and hands the unchanged document to
the store: the operation is a silent no-op whose reported outcome is
exactly the persistence outcome on the unchanged document. -/
theorem deleteEntry_missing_id_noop (data : BusinessData) (entryId : String)
    (persist : BusinessData → Bool)
    (h : ∀ e ∈ data.entries, e.id ≠ entryId) :
    deleteEntryRun data entryId persist = (data, persist data) := by
  have hnone : data.entries.find? (fun e => e.id == entryId) = none := by
    refine List.find?_eq_none.mpr ?_
    intro x hx
    simpa using h x hx
  have hfilter : data.entries.filter (fun e => e.id != entryId) = data.entries := by
    apply List.filter_eq_self.mpr
    intro a ha
    simpa using h a ha
  have hdel : deleteEntryData data entryId = data := by
    simp only [deleteEntryData, hnone, hfilter]
  simp [deleteEntryRun, hdel]

def c9Data : BusinessData :=
  { settings := { name := "", dailyTarget := none }
    entries := [{ id := "a", date := 0, timestamp := 0, type := .SALE, amount := 10,
                  productId := none, quantity := none, category := none,
                  sales := 10, expenses := 0 }]
    stock := [{ id := "p1", name := "Produit", quantity := 3, threshold := 1,
                totalSold := 0, unitPrice := none }] }

/-- Witness for C9: deleting an id that matches nothing leaves the
document unchanged and reports the persistence outcome. -/
theorem deleteEntry_missing_id_noop_witness :
    deleteEntryRun c9Data "zzz" (fun _ => true) = (c9Data, true) := by
  have h := deleteEntry_missing_id_noop c9Data "zzz" (fun _ => true)
    (by intro e he; fin_cases he; simp)
  simpa using h

/-! ## Analytics (src/lib/profit.ts) -/

/-- `calculateProfit` (src/lib/profit.ts:13). -/
def calculateProfit (sales expenses : Rat) : Rat := sales - expenses

/-- `getTodayProfit` (src/lib/profit.ts:20).  Note: the source uses
`entries.find(...)`, so only the FIRST entry whose date equals today is
consulted. -/
def getTodayProfit (entries : List DailyEntry) (today : Int) : Rat :=
  match entries.find? (fun e => e.date == today) with
  | none => 0
  | some e => calculateProfit e.sales e.expenses

/-- Modelled from the spec (section 4.4): `todayProfit(entries)` as the
sum of sale totals minus expense totals over ALL entries whose date
equals today.  Stated separately from `getTodayProfit` to compare the
source behaviour with the spec's words. -/
def todayProfitSpec (entries : List DailyEntry) (today : Int) : Rat :=
  ((entries.filter (fun e => e.date == today)).map
    (fun e => e.sales - e.expenses)).sum

/-- The trailing `days`-day filter pattern shared by the analytics
functions of src/lib/profit.ts: keep entries whose date lies between
`startDate = today - (days - 1)` and `today`, inclusive. -/
def trailingWindow (entries : List DailyEntry) (today days : Int) : List DailyEntry :=
  entries.filter (fun e => today - (days - 1) ≤ e.date ∧ e.date ≤ today)

/-- `getLast7DaysTrend` (src/lib/profit.ts:62): split the trailing
7-day window entries into halves by count and compare mean profits with
a 5 percent multiplicative threshold; 1 = increasing, -1 = decreasing,
0 = stable. -/
def getLast7DaysTrend (entries : List DailyEntry) (today : Int) : Int :=
  let last7Days := trailingWindow entries today 7
  if last7Days.length < 2 then 0
  else
    let midpoint := last7Days.length / 2
    let firstHalf := last7Days.take midpoint
    let secondHalf := last7Days.drop midpoint
    let firstHalfAvg :=
      ((firstHalf.map (fun e => calculateProfit e.sales e.expenses)).sum) /
        (firstHalf.length : Rat)
    let secondHalfAvg :=
      ((secondHalf.map (fun e => calculateProfit e.sales e.expenses)).sum) /
        (secondHalf.length : Rat)
    if firstHalfAvg * 1.05 < secondHalfAvg then 1
    else if secondHalfAvg < firstHalfAvg * 0.95 then -1
    else 0

/-- `getExpenseRatio` (src/lib/profit.ts:93): total expenses over total
sales in the trailing window, with 0 for an empty window and 0 when
total sales are zero. -/
def getExpenseRatio (entries : List DailyEntry) (today days : Int) : Rat :=
  let filteredEntries := trailingWindow entries today days
  if filteredEntries.length = 0 then 0
  else
    let totalSales := (filteredEntries.map (fun e => e.sales)).sum
    let totalExpenses := (filteredEntries.map (fun e => e.expenses)).sum
    if totalSales = 0 then 0 else totalExpenses / totalSales

def c3Entry1 : DailyEntry :=
  { id := "a", date := 0, timestamp := 0, type := .SALE, amount := 100,
    productId := none, quantity := none, category := none,
    sales := 100, expenses := 0 }

def c3Entry2 : DailyEntry :=
  { id := "b", date := 0, timestamp := 1, type := .SALE, amount := 50,
    productId := none, quantity := none, category := none,
    sales := 50, expenses := 0 }

/-- C3.  With two entries both dated today (sales 100 and 50, no
expenses), `getTodayProfit` returns 100 — the profit of the first
matching entry only, because the source uses `entries.find` — while the
specified sum over all of today's entries is 150. -/
theorem todayProfit_uses_first_entry_only :
    getTodayProfit [c3Entry1, c3Entry2] 0 = 100
    ∧ todayProfitSpec [c3Entry1, c3Entry2] 0 = 150
    ∧ getTodayProfit [c3Entry1, c3Entry2] 0 ≠ todayProfitSpec [c3Entry1, c3Entry2] 0 := by
  refine ⟨?_, ?_, ?_⟩
  · norm_num [getTodayProfit, calculateProfit, c3Entry1, c3Entry2, List.find?]
  · norm_num [todayProfitSpec, c3Entry1, c3Entry2, List.filter]
  · norm_num [getTodayProfit, todayProfitSpec, calculateProfit, c3Entry1, c3Entry2,
      List.find?, List.filter]

/-- C7.  Whenever the entries of the trailing window have zero total
sales — whether the window is empty or contains expense-only entries —
`getExpenseRatio` returns exactly 0 by explicit policy rather than
dividing by zero. -/
theorem expenseRatio_zero_when_no_sales (entries : List DailyEntry)
    (today days : Int)
    (h : ((trailingWindow entries today days).map (fun e => e.sales)).sum = 0) :
    getExpenseRatio entries today days = 0 := by
  simp only [getExpenseRatio, h, if_true]
  split <;> rfl

def c7Entry : DailyEntry :=
  { id := "e", date := 0, timestamp := 0, type := .EXPENSE, amount := 50000,
    productId := none, quantity := none, category := some .Transport,
    sales := 0, expenses := 50000 }

/-- Witness for C7: a window containing expenses 50000 and no sales
yields expense ratio 0. -/
theorem expenseRatio_zero_when_no_sales_witness :
    getExpenseRatio [c7Entry] 0 7 = 0 := by
  refine expenseRatio_zero_when_no_sales [c7Entry] 0 7 ?_
  norm_num [trailingWindow, c7Entry, List.filter]

/-! ## 7-day trend (C5) -/

/-- C5 (amended).  For one entry per day over the trailing 7 days,
listed in date order, the trend is determined purely by the
multiplicative 5 percent threshold of the source: with `A` the mean
profit of the first 3 days and `B` the mean profit of the last 4 days,
the result is 1 when `A * 1.05 < B`, -1 when `B < A * 0.95`, and 0
otherwise.  Strictly increasing profits therefore yield 1 only when the
second-half mean clears the 5 percent margin, and a constant profit
yields 0 only when it is non-negative (a constant negative profit
satisfies `A * 1.05 < B` and yields 1). -/
theorem trend7Day_threshold (today : Int) (e0 e1 e2 e3 e4 e5 e6 : DailyEntry)
    (h0 : e0.date = today - 6) (h1 : e1.date = today - 5)
    (h2 : e2.date = today - 4) (h3 : e3.date = today - 3)
    (h4 : e4.date = today - 2) (h5 : e5.date = today - 1)
    (h6 : e6.date = today) :
    getLast7DaysTrend [e0, e1, e2, e3, e4, e5, e6] today =
      (let firstAvg := (calculateProfit e0.sales e0.expenses +
          calculateProfit e1.sales e1.expenses +
          calculateProfit e2.sales e2.expenses) / 3
       let secondAvg := (calculateProfit e3.sales e3.expenses +
          calculateProfit e4.sales e4.expenses +
          calculateProfit e5.sales e5.expenses +
          calculateProfit e6.sales e6.expenses) / 4
       if firstAvg * 1.05 < secondAvg then 1
       else if secondAvg < firstAvg * 0.95 then -1
       else 0) := by
  have hfilt : trailingWindow [e0, e1, e2, e3, e4, e5, e6] today 7
      = [e0, e1, e2, e3, e4, e5, e6] := by
    apply List.filter_eq_self.mpr
    intro a ha
    fin_cases ha <;>
      simp only [decide_eq_true_eq, h0, h1, h2, h3, h4, h5, h6] <;>
      constructor <;> omega
  simp only [getLast7DaysTrend, hfilt]
  norm_num [List.take, List.drop]
  ring_nf

def c5NegEntry (d : Int) : DailyEntry :=
  { id := "n", date := d, timestamp := d, type := .EXPENSE, amount := 10,
    productId := none, quantity := none, category := some .Autre,
    sales := 0, expenses := 10 }

/-- Counterexample to C5 as stated: seven days with the constant daily
profit -10 (expenses 10, no sales).  Both half-means equal -10, and
since `-10 * 1.05 = -10.5 < -10`, the source returns 1 — not the 0 the
claim requires for a constant profit. -/
theorem trend7Day_constant_counterexample :
    getLast7DaysTrend [c5NegEntry 0, c5NegEntry 1, c5NegEntry 2, c5NegEntry 3,
      c5NegEntry 4, c5NegEntry 5, c5NegEntry 6] 6 = 1 ∧ (1 : Int) ≠ 0 := by
  refine ⟨?_, by norm_num⟩
  norm_num [getLast7DaysTrend, trailingWindow, c5NegEntry, calculateProfit,
    List.filter, List.take, List.drop]

def c5PosEntry (d : Int) : DailyEntry :=
  { id := "p", date := d, timestamp := d, type := .SALE, amount := 10,
    productId := none, quantity := none, category := none,
    sales := 10, expenses := 0 }

/-- Witness for C5 (amended): a constant positive daily profit of 10
over the 7 days stays inside the 5 percent band, so the trend is 0. -/
theorem trend7Day_threshold_witness :
    getLast7DaysTrend [c5PosEntry 0, c5PosEntry 1, c5PosEntry 2, c5PosEntry 3,
      c5PosEntry 4, c5PosEntry 5, c5PosEntry 6] 6 = 0 := by
  have h := trend7Day_threshold 6 (c5PosEntry 0) (c5PosEntry 1) (c5PosEntry 2)
    (c5PosEntry 3) (c5PosEntry 4) (c5PosEntry 5) (c5PosEntry 6)
    (by norm_num [c5PosEntry]) (by norm_num [c5PosEntry]) (by norm_num [c5PosEntry])
    (by norm_num [c5PosEntry]) (by norm_num [c5PosEntry]) (by norm_num [c5PosEntry])
    (by norm_num [c5PosEntry])
  norm_num [c5PosEntry, calculateProfit] at h
  exact h

/-! ## Remaining analytics used by the health score -/

/-- Year and month of an epoch-day index in the civil (Gregorian)
calendar, used to model the `YYYY-MM` prefix comparison of
`getMonthlyProfit` under the epoch-day date embedding. -/
def civilYearMonth (z0 : Int) : Int × Int :=
  let z := z0 + 719468
  let era := z.fdiv 146097
  let doe := z - era * 146097
  let yoe := (doe - doe.fdiv 1460 + doe.fdiv 36524 - doe.fdiv 146096).fdiv 365
  let y := yoe + era * 400
  let doy := doe - (365 * yoe + yoe.fdiv 4 - yoe.fdiv 100)
  let mp := (5 * doy + 2).fdiv 153
  let m := if mp < 10 then mp + 3 else mp - 9
  (if m ≤ 2 then y + 1 else y, m)

/-- `getMonthlyProfit` (src/lib/profit.ts:30): sum of per-entry profits
over the entries of the current calendar month. -/
def getMonthlyProfit (entries : List DailyEntry) (today : Int) : Rat :=
  ((entries.filter (fun e => civilYearMonth e.date == civilYearMonth today)).map
    (fun e => calculateProfit e.sales e.expenses)).sum

/-- `getMissingEntryCount` (src/lib/profit.ts:114): number of calendar
days in the trailing `days`-day window for which no entry exists. -/
def getMissingEntryCount (entries : List DailyEntry) (today days : Int) : Nat :=
  ((List.range days.toNat).filter
    (fun i => !(entries.any (fun e => e.date == today - (days - 1) + i)))).length

/-- `getWeeklyGrowth` (src/lib/profit.ts:136): percentage change in
total profit between the trailing 7-day window and the preceding 7-day
window, with 0 when the prior window's profit is exactly 0. -/
def getWeeklyGrowth (entries : List DailyEntry) (today : Int) : Rat :=
  let currentWeekProfit :=
    ((trailingWindow entries today 7).map
      (fun e => calculateProfit e.sales e.expenses)).sum
  let prevWeekProfit :=
    ((entries.filter (fun e => today - 13 ≤ e.date ∧ e.date ≤ today - 7)).map
      (fun e => calculateProfit e.sales e.expenses)).sum
  if prevWeekProfit = 0 then 0
  else (currentWeekProfit - prevWeekProfit) / prevWeekProfit * 100

/-! ## Health score (src/lib/healthScore.ts) -/

/-- `HealthScoreResult` (src/types). -/
structure HealthScoreResult where
  score : Rat
  message : String
deriving DecidableEq, Repr

/-- The message decision table of `generateHealthMessage`
(src/lib/healthScore.ts:122), keyed by score band and refined by the
trend, expense-ratio and missing-entry signals. -/
def generateHealthMessage (score : Rat) (trend : Int) (expenseRatio : Rat)
    (missingEntries : Nat) : String :=
  if 8.5 ≤ score then
    if trend = 1 then "Excellente sante ! Votre business est en pleine croissance."
    else "Votre business est en excellente sante."
  else if 6.5 ≤ score then
    if 0.75 < expenseRatio then
      "Bonne sante globale, mais vos marges pourraient etre optimisees."
    else if trend = 0 then "Votre business est stable."
    else "Bonne trajectoire !"
  else if 4.5 ≤ score then
    if 2 < missingEntries then "Votre business a besoin de suivi plus rigoureux."
    else if 0.8 < expenseRatio then "Vos depenses sont elevees ce mois-ci."
    else if trend = -1 then "La tendance est a la baisse."
    else "A surveiller : ameliorez votre rentabilite."
  else if 0.9 < expenseRatio then
    "Situation urgente : vos depenses depassent vos revenus."
  else if trend = -1 ∧ 3 < missingEntries then
    "Votre business a besoin de attention immediate."
  else if 5 < missingEntries then "Situation critique : votre suivi est incomplet."
  else "Votre business traverse une periode difficile."

/-- Lines 101-102 of the source: clamp the internal 0-100 score, then
convert to the 0-10 scale rounded to the nearest 0.5. -/
def normalizeScore (s : Rat) : Rat :=
  let clampedScore := max 0 (min 100 s)
  ((round (clampedScore / 100 * 10 * 2) : Int) : Rat) / 2

/-- `calculateHealthScore` (src/lib/healthScore.ts:25). -/
def calculateHealthScore (entries : List DailyEntry) (dailyTarget : Option Rat)
    (today : Int) : HealthScoreResult :=
  let score0 : Rat := 70
  let todayProfit := getTodayProfit entries today
  let monthlyProfit := getMonthlyProfit entries today
  let s1 := if 0 < todayProfit then score0 + 5
            else if todayProfit < 0 then score0 - 15 else score0
  let s2 := if 0 < monthlyProfit then s1 + 10
            else if monthlyProfit < 0 then s1 - 20 else s1
  let missingEntries := getMissingEntryCount entries today 7
  let s3 := if missingEntries = 0 then s2 + 10
            else if missingEntries = 1 then s2 + 5
            else if 5 ≤ missingEntries then s2 - 10 else s2
  let expenseRatio := getExpenseRatio entries today 7
  let s4 := if expenseRatio < 0.5 then s3 + 15
            else if expenseRatio < 0.7 then s3 + 5
            else if 0.9 < expenseRatio then s3 - 15 else s3 - 5
  let trend := getLast7DaysTrend entries today
  let s5 := if trend = 1 then s4 + 10 else if trend = -1 then s4 - 10 else s4
  let weeklyGrowth := getWeeklyGrowth entries today
  let s6 := if 10 < weeklyGrowth then s5 + 5
            else if weeklyGrowth < -10 then s5 - 5 else s5
  let s7 := match dailyTarget with
    | some t =>
        if 0 < t then
          if t ≤ todayProfit then s6 + 10
          else if t * 0.75 ≤ todayProfit then s6 + 5
          else s6
        else s6
    | none => s6
  let finalScore := normalizeScore s7
  { score := finalScore
    message := generateHealthMessage finalScore trend expenseRatio missingEntries }

theorem normalizeScore_bounds (s : Rat) :
    0 ≤ normalizeScore s ∧ normalizeScore s ≤ 10 ∧
      ∃ k : Int, normalizeScore s = (k : Rat) / 2 := by
  have hc0 : (0 : Rat) ≤ max 0 (min 100 s) := le_max_left 0 _
  have hc100 : max 0 (min 100 s) ≤ 100 :=
    max_le (by norm_num) (min_le_left 100 s)
  set c := max 0 (min 100 s) with hc
  have hx0 : (0 : Rat) ≤ c / 100 * 10 * 2 := by positivity
  have hx20 : c / 100 * 10 * 2 ≤ 20 := by linarith
  have hr0 : (0 : Int) ≤ round (c / 100 * 10 * 2) := by
    rw [round_eq]
    exact Int.floor_nonneg.mpr (by linarith)
  have hr20 : round (c / 100 * 10 * 2) ≤ 20 := by
    rw [round_eq]
    have : (c / 100 * 10 * 2 + 1 / 2 : Rat) ≤ 41 / 2 := by linarith
    calc ⌊(c / 100 * 10 * 2 + 1 / 2 : Rat)⌋ ≤ ⌊(41 / 2 : Rat)⌋ :=
          Int.floor_le_floor this
      _ = 20 := by norm_num [Int.floor_eq_iff]
  refine ⟨?_, ?_, ⟨round (c / 100 * 10 * 2), rfl⟩⟩
  · unfold normalizeScore
    rw [← hc]
    positivity
  · unfold normalizeScore
    rw [← hc]
    rw [div_le_iff₀ (by norm_num : (0 : Rat) < 2)]
    calc ((round (c / 100 * 10 * 2) : Int) : Rat) ≤ ((20 : Int) : Rat) := by
          exact_mod_cast hr20
      _ ≤ 10 * 2 := by norm_num

/-- C4.  For every entry list, every daily target and every reference
day, the health score is between 0 and 10 and is an integer multiple of
0.5: the internal 0-100 score is clamped and then rounded to the
nearest half point on the 0-10 scale. -/
theorem healthScore_bounded (entries : List DailyEntry)
    (dailyTarget : Option Rat) (today : Int) :
    0 ≤ (calculateHealthScore entries dailyTarget today).score ∧
      (calculateHealthScore entries dailyTarget today).score ≤ 10 ∧
      ∃ k : Int, (calculateHealthScore entries dailyTarget today).score
        = (k : Rat) / 2 :=
  normalizeScore_bounds _

/-! ## Legacy-format migration (src/lib/storage.ts) -/

/-- `SaleLineItem` (src/types). -/
structure SaleLineItem where
  productId : String
  quantity : Rat
  unitPrice : Option Rat
  total : Rat
deriving DecidableEq, Repr

/-- `ExpenseLineItem` (src/types). -/
structure ExpenseLineItem where
  category : ExpenseCategory
  amount : Rat
deriving DecidableEq, Repr

/-- A raw persisted entry record before migration: the typed line-item
arrays may be absent (legacy shape), as may the flat numeric totals. -/
structure RawEntry where
  id : String
  date : String
  saleItems : Option (List SaleLineItem)
  expenseItems : Option (List ExpenseLineItem)
  sales : Option Rat
  expenses : Option Rat
  timestamp : Option Int
deriving DecidableEq, Repr

/-- An entry after migration to the new persisted format. -/
structure MigratedEntry where
  id : String
  date : String
  saleItems : List SaleLineItem
  expenseItems : List ExpenseLineItem
  sales : Rat
  expenses : Rat
  timestamp : Option Int
deriving DecidableEq, Repr

/-- `migrateEntryToNewFormat` (src/lib/storage.ts:31): an entry already
carrying both line-item arrays is returned as-is (with the flat totals
defaulted to 0 when absent); otherwise one SALE line item carrying the
sentinel product reference `_legacy_` is synthesized when `sales > 0`,
and one EXPENSE line item in category `Autre` when `expenses > 0`. -/
def migrateEntryToNewFormat (entry : RawEntry) : MigratedEntry :=
  match entry.saleItems, entry.expenseItems with
  | some saleItems, some expenseItems =>
      { id := entry.id, date := entry.date
        saleItems := saleItems, expenseItems := expenseItems
        sales := entry.sales.getD 0, expenses := entry.expenses.getD 0
        timestamp := entry.timestamp }
  | _, _ =>
      let oldSales := entry.sales.getD 0
      let oldExpenses := entry.expenses.getD 0
      let saleItems :=
        if 0 < oldSales then
          [{ productId := "_legacy_", quantity := 1, unitPrice := none,
             total := oldSales }]
        else []
      let expenseItems :=
        if 0 < oldExpenses then
          [{ category := ExpenseCategory.Autre, amount := oldExpenses }]
        else []
      { id := entry.id, date := entry.date
        saleItems := saleItems, expenseItems := expenseItems
        sales := oldSales, expenses := oldExpenses
        timestamp := entry.timestamp }

/-- `getTotalSales` (entry totals helper): sum of sale line totals. -/
def getTotalSales (saleItems : List SaleLineItem) : Rat :=
  (saleItems.map (fun item => item.total)).sum

/-- `getTotalExpenses` (entry totals helper): sum of expense amounts. -/
def getTotalExpenses (expenseItems : List ExpenseLineItem) : Rat :=
  (expenseItems.map (fun item => item.amount)).sum

/-- C6.  Migrating a legacy-format entry with flat totals `sales = S`
and `expenses = E` yields, when `S > 0`, exactly one synthesized sale
with the sentinel product reference whose line totals sum to `S`, and,
when `E > 0`, exactly one expense in category `Autre` whose amounts sum
to `E`; when `S = 0` (resp. `E = 0`) the corresponding list is empty. -/
theorem migration_preserves_totals (entry : RawEntry) (S E : Rat)
    (hleg : entry.saleItems = none)
    (hs : entry.sales = some S) (he : entry.expenses = some E) :
    ((0 < S → (migrateEntryToNewFormat entry).saleItems =
        [{ productId := "_legacy_", quantity := 1, unitPrice := none, total := S }]
      ∧ getTotalSales (migrateEntryToNewFormat entry).saleItems = S)
    ∧ (S = 0 → (migrateEntryToNewFormat entry).saleItems = []))
    ∧ ((0 < E → (migrateEntryToNewFormat entry).expenseItems =
        [{ category := ExpenseCategory.Autre, amount := E }]
      ∧ getTotalExpenses (migrateEntryToNewFormat entry).expenseItems = E)
    ∧ (E = 0 → (migrateEntryToNewFormat entry).expenseItems = [])) := by
  have hm : migrateEntryToNewFormat entry =
      { id := entry.id, date := entry.date
        saleItems :=
          if 0 < S then
            [{ productId := "_legacy_", quantity := 1, unitPrice := none,
               total := S }]
          else []
        expenseItems :=
          if 0 < E then [{ category := ExpenseCategory.Autre, amount := E }]
          else []
        sales := S, expenses := E
        timestamp := entry.timestamp } := by
    simp only [migrateEntryToNewFormat, hleg, hs, he, Option.getD_some]
  rw [hm]
  refine ⟨⟨?_, ?_⟩, ⟨?_, ?_⟩⟩
  · intro hS
    rw [if_pos hS]
    exact ⟨rfl, by simp [getTotalSales]⟩
  · intro hS
    subst hS
    norm_num
  · intro hE
    rw [if_pos hE]
    exact ⟨rfl, by simp [getTotalExpenses]⟩
  · intro hE
    subst hE
    norm_num

def c6Legacy : RawEntry :=
  { id := "entry_1", date := "2024-01-15", saleItems := none,
    expenseItems := none, sales := some 100000, expenses := some 30000,
    timestamp := some 1705334400000 }

/-- Witness for C6: migrating the legacy entry
`{sales:100000, expenses:30000}` yields a SALE sum of 100000 and an
EXPENSE sum of 30000. -/
theorem migration_preserves_totals_witness :
    getTotalSales (migrateEntryToNewFormat c6Legacy).saleItems = 100000
    ∧ getTotalExpenses (migrateEntryToNewFormat c6Legacy).expenseItems = 30000 := by
  have h := migration_preserves_totals c6Legacy 100000 30000 rfl rfl rfl
  exact ⟨(h.1.1 (by norm_num)).2, (h.2.1 (by norm_num)).2⟩

/-! ## JSON import validation (src/lib/import_and_export.ts) -/

/-- A JSON value, as produced by `JSON.parse`. -/
inductive Json where
  | null
  | bool (b : Bool)
  | num (q : Rat)
  | str (s : String)
  | arr (elems : List Json)
  | obj (fields : List (String × Json))

/-- Property lookup on an object field list (first binding wins). -/
def jLookup : List (String × Json) → String → Option Json
  | [], _ => none
  | (k, v) :: rest, key => if k = key then some v else jLookup rest key

/-- Property access `raw["key"]` in JavaScript: a value for object
fields, `undefined` (here `none`) otherwise. -/
def jGet : Json → String → Option Json
  | .obj fields, key => jLookup fields key
  | _, _ => none

/-- `typeof v === "string"` for a possibly-undefined property. -/
def jIsString : Option Json → Bool
  | some (.str _) => true
  | _ => false

/-- `typeof v === "number"` for a possibly-undefined property. -/
def jIsNumber : Option Json → Bool
  | some (.num _) => true
  | _ => false

/-- JavaScript strict equality of a property against a string literal. -/
def jIsStr (v : Option Json) (t : String) : Bool :=
  match v with
  | some (.str s) => s == t
  | _ => false

/-- JavaScript strict equality `v === 1` for the `version` property. -/
def jIsVersionOne : Option Json → Bool
  | some (.num q) => q == 1
  | _ => false

/-- `typeof raw === "object" && raw !== null`: in JavaScript this
accepts arrays as well as plain objects. -/
def jIsObjectLike : Json → Bool
  | .obj _ => true
  | .arr _ => true
  | _ => false

/-- `validateEntry` (src/lib/import_and_export.ts:253): `none` means the
entry passed; `some msg` is the first field-level validation error
(string `id`, numeric `timestamp`, `type` in {SALE, EXPENSE}, numeric
`amount`). -/
def validateEntryErr (raw : Json) : Option String :=
  if !jIsObjectLike raw then some "Entree invalide."
  else if !jIsString (jGet raw "id") then some "Entree sans champ id valide."
  else if !jIsNumber (jGet raw "timestamp") then
    some "timestamp doit etre un nombre."
  else if !(jIsStr (jGet raw "type") "SALE" || jIsStr (jGet raw "type") "EXPENSE") then
    some "type inconnu."
  else if !jIsNumber (jGet raw "amount") then some "amount doit etre un nombre."
  else none

/-- `validateStockItem` (src/lib/import_and_export.ts:230). -/
def validateStockItemErr (raw : Json) : Option String :=
  if !jIsObjectLike raw then some "Article de stock invalide."
  else if !jIsString (jGet raw "id") then
    some "Article de stock sans champ id valide."
  else if !jIsString (jGet raw "name") then
    some "Article de stock sans champ name valide."
  else if !jIsNumber (jGet raw "quantity") then
    some "quantity doit etre un nombre."
  else none

/-- The first error among a list of items, as produced by the source's
sequential `for` loops over `stock` and `entries`. -/
def firstErr (validate : Json → Option String) : List Json → Option String
  | [] => none
  | x :: xs =>
      match validate x with
      | some msg => some msg
      | none => firstErr validate xs

/-- `Array.isArray(v)` on a possibly-undefined property, returning the
elements when it is an array. -/
def jAsArr : Option Json → Option (List Json)
  | some (.arr elems) => some elems
  | _ => none

/-- `validatePayload` (src/lib/import_and_export.ts:194): top-level
shape (an object, not null, not an array), `version === 1`, array
`stock` and `entries` fields, then per-item validation; `none` means
the payload is accepted. -/
def validatePayloadErr (raw : Json) : Option String :=
  match raw with
  | .obj fields =>
      if !jIsVersionOne (jLookup fields "version") then
        some "Version de fichier non supportee."
      else
        match jAsArr (jLookup fields "stock") with
        | some stockList =>
            match jAsArr (jLookup fields "entries") with
            | some entriesList =>
                match firstErr validateStockItemErr stockList with
                | some msg => some msg
                | none => firstErr validateEntryErr entriesList
            | none => some "Champ entries manquant ou invalide."
        | none => some "Champ stock manquant ou invalide."
  | _ => some "Format de fichier invalide."

/-- The state of an uploaded file after the read and parse stages of
`importJSON`: reading may fail, parsing may fail, or a JSON value is
produced. -/
inductive RawFile where
  | unreadable
  | unparsable
  | parsed (j : Json)

/-- The discriminated union returned by `importJSON`. -/
inductive ImportResult where
  | ok (data : Json)
  | fail (error : String)

/-- `importJSON` (src/lib/import_and_export.ts:155): read, parse, then
validate, returning a structured success/failure value in every case
rather than throwing. -/
def importJSONModel : RawFile → ImportResult
  | .unreadable => .fail "Impossible de lire le fichier."
  | .unparsable => .fail "Le fichier nest pas un JSON valide."
  | .parsed j =>
      match validatePayloadErr j with
      | some msg => .fail msg
      | none => .ok j

theorem firstErr_eq_none_iff {validate : Json → Option String} {l : List Json} :
    firstErr validate l = none ↔ ∀ x ∈ l, validate x = none := by
  induction l with
  | nil => simp [firstErr]
  | cons x xs ih =>
      simp only [firstErr]
      cases hv : validate x with
      | some msg => simp [hv]
      | none => simp [hv, ih]

theorem jAsArr_eq_some_iff {v : Option Json} {l : List Json} :
    jAsArr v = some l ↔ v = some (.arr l) := by
  cases v with
  | none => simp [jAsArr]
  | some j => cases j <;> simp [jAsArr]

theorem validatePayloadErr_eq_none_iff (j : Json) :
    validatePayloadErr j = none ↔
      ∃ fields, j = .obj fields
        ∧ jIsVersionOne (jLookup fields "version") = true
        ∧ (∃ stockList, jLookup fields "stock" = some (.arr stockList)
            ∧ ∀ s ∈ stockList, validateStockItemErr s = none)
        ∧ (∃ entriesList, jLookup fields "entries" = some (.arr entriesList)
            ∧ ∀ e ∈ entriesList, validateEntryErr e = none) := by
  cases j with
  | obj fields =>
      constructor
      · intro h
        simp only [validatePayloadErr] at h
        split at h
        · exact Option.noConfusion h
        · rename_i hver
          have hb : jIsVersionOne (jLookup fields "version") = true := by
            simpa using hver
          split at h
          · rename_i stockList hstock
            split at h
            · rename_i entriesList hentries
              split at h
              · exact Option.noConfusion h
              · rename_i hfs
                exact ⟨fields, rfl, hb,
                  ⟨stockList, jAsArr_eq_some_iff.mp hstock,
                    firstErr_eq_none_iff.mp hfs⟩,
                  ⟨entriesList, jAsArr_eq_some_iff.mp hentries,
                    firstErr_eq_none_iff.mp h⟩⟩
            · exact Option.noConfusion h
          · exact Option.noConfusion h
      · rintro ⟨fields', hf, hv, ⟨stockList, hstock, hsts⟩,
          ⟨entriesList, hentries, hes⟩⟩
        injection hf with hf'
        subst hf'
        simp only [validatePayloadErr, hv, Bool.not_true,
          jAsArr_eq_some_iff.mpr hstock, jAsArr_eq_some_iff.mpr hentries,
          firstErr_eq_none_iff.mpr hsts, Bool.false_eq_true, if_false]
        exact firstErr_eq_none_iff.mpr hes
  | null => simp [validatePayloadErr]
  | bool b => simp [validatePayloadErr]
  | num q => simp [validatePayloadErr]
  | str s => simp [validatePayloadErr]
  | arr l => simp [validatePayloadErr]

/-- C8.  `importJSON` is a total function into a structured
success/failure result (it never throws), and it succeeds exactly when
the file is readable, parses to a plain object whose `version` is the
number 1 and whose `stock` and `entries` fields are arrays, and every
stock item and entry passes its field-level checks (for entries: string
`id`, numeric `timestamp`, `type` in {SALE, EXPENSE}, numeric
`amount`); every other input — unreadable, unparsable, wrong version or
a failing field check — produces a failure result. -/
theorem importJSON_ok_iff (f : RawFile) :
    (∃ p, importJSONModel f = .ok p) ↔
      ∃ fields, f = .parsed (.obj fields)
        ∧ jIsVersionOne (jLookup fields "version") = true
        ∧ (∃ stockList, jLookup fields "stock" = some (.arr stockList)
            ∧ ∀ s ∈ stockList, validateStockItemErr s = none)
        ∧ (∃ entriesList, jLookup fields "entries" = some (.arr entriesList)
            ∧ ∀ e ∈ entriesList, validateEntryErr e = none) := by
  cases f with
  | unreadable => simp [importJSONModel]
  | unparsable => simp [importJSONModel]
  | parsed j =>
      constructor
      · rintro ⟨p, hp⟩
        simp only [importJSONModel] at hp
        cases hval : validatePayloadErr j with
        | some msg => rw [hval] at hp; exact ImportResult.noConfusion hp
        | none =>
            obtain ⟨fields, hj, rest⟩ := (validatePayloadErr_eq_none_iff j).mp hval
            exact ⟨fields, by rw [hj], rest⟩
      · rintro ⟨fields, hf, rest⟩
        have hj : j = .obj fields := by
          injection hf
        have hval : validatePayloadErr j = none :=
          (validatePayloadErr_eq_none_iff j).mpr ⟨fields, hj, rest⟩
        exact ⟨j, by simp only [importJSONModel, hval]⟩

def c10Entry : Json :=
  .obj [("id", .str "e1"), ("timestamp", .num 0), ("type", .str "SALE"),
        ("amount", .num (-5))]

def c10Payload : Json :=
  .obj [("version", .num 1), ("exportedAt", .num 0), ("stock", .arr []),
        ("entries", .arr [c10Entry])]

/-- C10.  Import validation checks only the presence and type of each
field, never its sign: the version-1 payload whose single entry carries
the negative amount -5 is accepted by `importJSON`, so an accepted
imported document can violate the non-negativity invariants the rest of
the core maintains. -/
theorem import_accepts_negative_amount :
    importJSONModel (.parsed c10Payload) = .ok c10Payload
    ∧ jGet c10Entry "amount" = some (.num (-5))
    ∧ ((-5 : Rat) < 0) := by
  refine ⟨?_, rfl, by norm_num⟩
  rfl

end MonBusiness
